import Mathlib

/-!
Shallow embedding of `src/writer.rs` of the `ply-rs` PLY writer.

The Rust writer emits a PLY document (header + payload) to a byte sink
(`std::io::Write`).  We model the sink as an explicit state (`Sink`) holding
the bytes written so far together with a script of injected I/O failures, and
model each Rust function as a state-passing Lean function returning `Res`:
`ok` mirrors Rust's `Ok`, `err` mirrors `Err`, and `panic` marks a Rust panic
(`unwrap` on an error, or indexing a map with a missing key).  Bytes are `Nat`
code points (all emitted text is ASCII, so this coincides with UTF-8).
-/

namespace PlyRS

/-- Rust `io::Error` values reaching the writer: `InvalidInput` errors the
writer constructs itself (carrying their message), and opaque sink I/O errors
(carried as an abstract code). -/
inductive WriteError where
  | invalidInput (msg : String)
  | io (code : Nat)
deriving DecidableEq

/-- Outcome of a Rust call: `Ok`, `Err`, or a panic. -/
inductive Res (α : Type) where
  | ok (a : α)
  | err (e : WriteError)
  | panic
deriving DecidableEq

def Res.bind {α β : Type} : Res α → (α → Res β) → Res β
  | .ok a, f => f a
  | .err e, _ => .err e
  | .panic, _ => .panic

instance : Monad Res where
  pure := Res.ok
  bind := Res.bind

@[simp] theorem Res.bind_ok {α β : Type} (a : α) (f : α → Res β) :
    Res.bind (.ok a) f = f a := rfl

@[simp] theorem Res.bind_err {α β : Type} (e : WriteError) (f : α → Res β) :
    Res.bind (.err e) f = .err e := rfl

@[simp] theorem Res.bind_panic {α β : Type} (f : α → Res β) :
    Res.bind .panic f = .panic := rfl

@[simp] theorem Res.pure_eq_ok {α : Type} (a : α) : (pure a : Res α) = .ok a := rfl

@[simp] theorem Res.monad_bind_eq_bind {α β : Type} (x : Res α) (f : α → Res β) :
    x >>= f = Res.bind x f := rfl

/-- The byte sink (`out : &mut T` with `T : Write`).  `buf` is the bytes
successfully written so far; `failures` is a script consumed one entry per
`write` call (`some e` makes that call fail with I/O error `e`, `none` lets it
succeed; an exhausted script means all further calls succeed); `flushErr`
makes `flush()` fail. -/
structure Sink where
  buf : List Nat
  failures : List (Option Nat)
  flushErr : Option Nat
deriving DecidableEq

/-- A fresh sink holding `bs`, with no injected failures. -/
def mkSink (bs : List Nat) : Sink := ⟨bs, [], none⟩

/-- `out.write(bs)`: appends the bytes and returns their count, unless the
failure script injects an error for this call. -/
def sinkWrite (s : Sink) (bs : List Nat) : Res (Sink × Nat) :=
  match s.failures with
  | some e :: _ => .err (.io e)
  | none :: rest => .ok ({ s with buf := s.buf ++ bs, failures := rest }, bs.length)
  | [] => .ok ({ s with buf := s.buf ++ bs }, bs.length)

/-- `out.flush()`. -/
def sinkFlush (s : Sink) : Except Nat Sink :=
  match s.flushErr with
  | some e => .error e
  | none => .ok s

/-- Bytes of a string (all strings the writer emits are ASCII). -/
def strBytes (str : String) : List Nat := str.data.map Char.toNat

/-- Little-endian byte list of `n` at the given width (as the `byteorder`
crate lays out integers). -/
def leBytes : Nat → Nat → List Nat
  | 0, _ => []
  | w + 1, n => n % 256 :: leBytes w (n / 256)

/-- Bytes of `n` at width `w` in the selected byte order (`be = true` for
`BigEndian`). -/
def ordBytes (be : Bool) (w : Nat) (n : Nat) : List Nat :=
  if be then (leBytes w n).reverse else leBytes w n

/-- Two's-complement bit pattern of a signed integer at `w` bytes (the bits
`write_i8` / `write_i16` / `write_i32` emit). -/
def intBits (w : Nat) (v : Int) : Nat := (v % ((2 : Int) ^ (8 * w))).toNat

/-! ## Data model (`ply` module types used by the writer) -/

/-- `PropertyType`: the declared type of a property. -/
inductive PropertyType where
  | Char
  | UChar
  | Short
  | UShort
  | Int
  | UInt
  | Float
  | Double
  | List (index_type : PropertyType) (value_type : PropertyType)
deriving DecidableEq

/-- `Property`: a canonical property value.  Floats and doubles are carried
as their IEEE-754 bit patterns (`Nat` below `2^32` / `2^64`), which is what
the binary paths write; the ascii rendering is modelled separately. -/
inductive Property where
  | Char (v : Int)
  | UChar (v : Nat)
  | Short (v : Int)
  | UShort (v : Nat)
  | Int (v : Int)
  | UInt (v : Nat)
  | Float (bits : Nat)
  | Double (bits : Nat)
  | List (v : List Property)

/-- `DefaultElement`: order-preserving map property-name → `Property`
(a `KeyMap` in `ply-rs`; modelled as an association list in insertion
order, which is also its iteration order). -/
abbrev DefaultElement := List (String × Property)

/-- `PropertyDef`. -/
structure PropertyDef where
  name : String
  data_type : PropertyType
deriving DecidableEq

/-- `ElementDef`: `properties` is an order-preserving map name → `PropertyDef`. -/
structure ElementDef where
  name : String
  count : Nat
  properties : List (String × PropertyDef)
deriving DecidableEq

/-- `Encoding`. -/
inductive Encoding where
  | Ascii
  | BinaryBigEndian
  | BinaryLittleEndian
deriving DecidableEq

/-- `Version`. -/
structure Version where
  major : Nat
  minor : Nat
deriving DecidableEq

/-- `Header`: `elements` is an order-preserving map name → `ElementDef`. -/
structure Header where
  encoding : Encoding
  version : Version
  comments : List String
  obj_infos : List String
  elements : List (String × ElementDef)
deriving DecidableEq

/-- `Ply<P>` (the Document): header plus order-preserving payload map
element-name → sequence of caller elements. -/
structure Ply (P : Type) where
  header : Header
  payload : List (String × List P)

/-- Lookup in an order-preserving map (`KeyMap` indexing / iteration share
this association-list representation). -/
def assocLookup {α : Type} : List (String × α) → String → Option α
  | [], _ => none
  | (k', v) :: rest, k => if k' = k then some v else assocLookup rest k

/-- The `ToElement` converter capability: `to_element(&self, element_def)`.
Modelled as an explicit function argument; `Except` mirrors its `Result`. -/
def Converter (P : Type) : Type := P → ElementDef → Except WriteError DefaultElement

/-- The identity `ToElement` impl for `DefaultElement`. -/
def idConv : Converter DefaultElement := fun e _ => .ok e

/-- Lift a converter `Result` into a writer outcome. -/
def liftConv {α : Type} : Except WriteError α → Res α
  | .ok a => .ok a
  | .error e => .err e

/-! ## Ascii rendering of numbers -/

/-- Decimal string of the exact value `D / 10 ^ k` with trailing fractional
zeros trimmed (and the point dropped when nothing remains after it). -/
def natDecimalScaled (D k : Nat) : String :=
  let ds := Nat.repr D
  let ds := if ds.length ≤ k then String.mk (List.replicate (k + 1 - ds.length) '0') ++ ds else ds
  let cs := ds.data
  let ip := cs.take (cs.length - k)
  let fp := cs.drop (cs.length - k)
  let fp := (fp.reverse.dropWhile (fun c => c = '0')).reverse
  if fp = [] then String.mk ip else String.mk ip ++ "." ++ String.mk fp

/-- Modelled from the spec: the ascii path renders "scalars as base-10 text"
via Rust std's `Display` for `f32`, which is external collaborator code not
in this repository.  Rust prints the shortest decimal that round-trips; for a
float whose value is exactly a short decimal — every float in the spec's
scenarios — that is the exact decimal expansion of the value, which this
definition computes from the bit pattern. -/
def f32ToString (bits : Nat) : String :=
  let sn := bits / 2 ^ 31 % 2
  let e := bits / 2 ^ 23 % 256
  let m := bits % 2 ^ 23
  if e = 255 then (if m = 0 then (if sn = 1 then "-inf" else "inf") else "NaN")
  else
    let M := if e = 0 then m else m + 2 ^ 23
    if M = 0 then (if sn = 1 then "-0" else "0")
    else
      let E : Int := Int.ofNat e - 150 + (if e = 0 then 1 else 0)
      let sgn := if sn = 1 then "-" else ""
      if 0 ≤ E then sgn ++ Nat.repr (M * 2 ^ E.toNat)
      else sgn ++ natDecimalScaled (M * 5 ^ E.natAbs) E.natAbs

/-- Modelled from the spec: Rust std's `Display` for `f64`, as for
`f32ToString`. -/
def f64ToString (bits : Nat) : String :=
  let sn := bits / 2 ^ 63 % 2
  let e := bits / 2 ^ 52 % 2048
  let m := bits % 2 ^ 52
  if e = 2047 then (if m = 0 then (if sn = 1 then "-inf" else "inf") else "NaN")
  else
    let M := if e = 0 then m else m + 2 ^ 52
    if M = 0 then (if sn = 1 then "-0" else "0")
    else
      let E : Int := Int.ofNat e - 1075 + (if e = 0 then 1 else 0)
      let sgn := if sn = 1 then "-" else ""
      if 0 ≤ E then sgn ++ Nat.repr (M * 2 ^ E.toNat)
      else sgn ++ natDecimalScaled (M * 5 ^ E.natAbs) E.natAbs

/-- Rust `Display` for the signed integer scalar types. -/
def intToString (v : Int) : String := Int.repr v

/-- Rust `Display` for the unsigned integer scalar types and `usize`. -/
def natToString (n : Nat) : String := Nat.repr n

/-! ## The Writer -/

/-- `NewLine`. -/
inductive NewLine where
  | N
  | R
  | RN

/-- `Writer<P>`: the only writer state is the configured newline string. -/
structure Writer where
  new_line : String

/-- `Writer::new()`: the default newline is CRLF. -/
def Writer.new : Writer := ⟨"\r\n"⟩

/-- `set_newline`. -/
def set_newline (_w : Writer) (new_line : NewLine) : Writer :=
  ⟨match new_line with
   | .R => "\r"
   | .N => "\n"
   | .RN => "\r\n"⟩

/-- `write_new_line`. -/
def write_new_line (w : Writer) (s : Sink) : Res (Sink × Nat) :=
  sinkWrite s (strBytes w.new_line)

/-- `write_simple_value` (the source is generic over `ToString`; the model
takes the rendered base-10 text). -/
def write_simple_value (_w : Writer) (value : String) (s : Sink) : Res (Sink × Nat) :=
  sinkWrite s (strBytes value)

/-- `write_encoding`. -/
def write_encoding (_w : Writer) (encoding : Encoding) (s : Sink) : Res (Sink × Nat) :=
  sinkWrite s (strBytes (match encoding with
    | .Ascii => "ascii"
    | .BinaryBigEndian => "binary_big_endian"
    | .BinaryLittleEndian => "binary_little_endian"))

/-- `write_line_magic_number`. -/
def write_line_magic_number (w : Writer) (s : Sink) : Res (Sink × Nat) := do
  let (s, n1) ← sinkWrite s (strBytes "ply")
  let (s, n2) ← write_new_line w s
  pure (s, n1 + n2)

/-- `write_line_format`. -/
def write_line_format (w : Writer) (encoding : Encoding) (version : Version) (s : Sink) :
    Res (Sink × Nat) := do
  let (s, n1) ← sinkWrite s (strBytes "format ")
  let (s, n2) ← write_encoding w encoding s
  let (s, n3) ← sinkWrite s (strBytes (" " ++ natToString version.major ++ "." ++ natToString version.minor))
  let (s, n4) ← write_new_line w s
  pure (s, n1 + n2 + n3 + n4)

/-- `write_line_comment`. -/
def write_line_comment (w : Writer) (comment : String) (s : Sink) : Res (Sink × Nat) := do
  let (s, n1) ← sinkWrite s (strBytes ("comment " ++ comment))
  let (s, n2) ← write_new_line w s
  pure (s, n1 + n2)

/-- `write_line_obj_info`. -/
def write_line_obj_info (w : Writer) (obj_info : String) (s : Sink) : Res (Sink × Nat) := do
  let (s, n1) ← sinkWrite s (strBytes ("obj_info " ++ obj_info))
  let (s, n2) ← write_new_line w s
  pure (s, n1 + n2)

/-- `write_line_element_definition`. -/
def write_line_element_definition (w : Writer) (element : ElementDef) (s : Sink) :
    Res (Sink × Nat) := do
  let (s, n1) ← sinkWrite s (strBytes ("element " ++ element.name ++ " " ++ natToString element.count))
  let (s, n2) ← write_new_line w s
  pure (s, n1 + n2)

/-- `write_property_type`. -/
def write_property_type (w : Writer) (data_type : PropertyType) (s : Sink) : Res (Sink × Nat) :=
  match data_type with
  | .Char => sinkWrite s (strBytes "char")
  | .UChar => sinkWrite s (strBytes "uchar")
  | .Short => sinkWrite s (strBytes "short")
  | .UShort => sinkWrite s (strBytes "ushort")
  | .Int => sinkWrite s (strBytes "int")
  | .UInt => sinkWrite s (strBytes "uint")
  | .Float => sinkWrite s (strBytes "float")
  | .Double => sinkWrite s (strBytes "double")
  | .List index_type t => do
    let (s, written) ← sinkWrite s (strBytes "list ")
    match index_type with
    | .Float => .err (.invalidInput "List index can not be of type float.")
    | .Double => .err (.invalidInput "List index can not be of type double.")
    | .List _ _ => .err (.invalidInput "List index can not be of type list.")
    | _ => do
      let (s, n2) ← write_property_type w index_type s
      let (s, n3) ← sinkWrite s (strBytes " ")
      let (s, n4) ← write_property_type w t s
      pure (s, written + n2 + n3 + n4)

/-- `write_line_property_definition`. -/
def write_line_property_definition (w : Writer) (property : PropertyDef) (s : Sink) :
    Res (Sink × Nat) := do
  let (s, n1) ← sinkWrite s (strBytes "property ")
  let (s, n2) ← write_property_type w property.data_type s
  let (s, n3) ← sinkWrite s (strBytes " ")
  let (s, n4) ← sinkWrite s (strBytes property.name)
  let (s, n5) ← write_new_line w s
  pure (s, n1 + n2 + n3 + n4 + n5)

/-- The `for (_, p) in &element.properties` loop of `write_element_definition`. -/
def write_property_def_list (w : Writer) (ps : List (String × PropertyDef)) (s : Sink) :
    Res (Sink × Nat) :=
  match ps with
  | [] => .ok (s, 0)
  | (_, p) :: rest => do
    let (s, n1) ← write_line_property_definition w p s
    let (s, n2) ← write_property_def_list w rest s
    pure (s, n1 + n2)

/-- `write_element_definition`: the element line and all property lines. -/
def write_element_definition (w : Writer) (element : ElementDef) (s : Sink) :
    Res (Sink × Nat) := do
  let (s, n1) ← write_line_element_definition w element s
  let (s, n2) ← write_property_def_list w element.properties s
  pure (s, n1 + n2)

/-- `write_line_end_header`. -/
def write_line_end_header (w : Writer) (s : Sink) : Res (Sink × Nat) := do
  let (s, n1) ← sinkWrite s (strBytes "end_header")
  let (s, n2) ← write_new_line w s
  pure (s, n1 + n2)

/-- The `for c in &header.comments` loop of `write_header`. -/
def write_comment_list (w : Writer) (cs : List String) (s : Sink) : Res (Sink × Nat) :=
  match cs with
  | [] => .ok (s, 0)
  | c :: rest => do
    let (s, n1) ← write_line_comment w c s
    let (s, n2) ← write_comment_list w rest s
    pure (s, n1 + n2)

/-- The `for oi in &header.obj_infos` loop of `write_header`. -/
def write_obj_info_list (w : Writer) (os : List String) (s : Sink) : Res (Sink × Nat) :=
  match os with
  | [] => .ok (s, 0)
  | o :: rest => do
    let (s, n1) ← write_line_obj_info w o s
    let (s, n2) ← write_obj_info_list w rest s
    pure (s, n1 + n2)

/-- The `for (_, e) in &header.elements` loop of `write_header`. -/
def write_element_def_list (w : Writer) (es : List (String × ElementDef)) (s : Sink) :
    Res (Sink × Nat) :=
  match es with
  | [] => .ok (s, 0)
  | (_, e) :: rest => do
    let (s, n1) ← write_element_definition w e s
    let (s, n2) ← write_element_def_list w rest s
    pure (s, n1 + n2)

/-- `write_header`. -/
def write_header (w : Writer) (header : Header) (s : Sink) : Res (Sink × Nat) := do
  let (s, n1) ← write_line_magic_number w s
  let (s, n2) ← write_line_format w header.encoding header.version s
  let (s, n3) ← write_comment_list w header.comments s
  let (s, n4) ← write_obj_info_list w header.obj_infos s
  let (s, n5) ← write_element_def_list w header.elements s
  let (s, n6) ← write_line_end_header w s
  pure (s, n1 + n2 + n3 + n4 + n5 + n6)

/-! ## Binary payload -/

mutual

/-- `__write_binary_property` (`B : ByteOrder` is the flag `be`).  The `List`
branch mirrors the source exactly: the count is written at the index type's
width (invalid index types error), and every item is then written recursively
with `&*index_type` — the *index* type, not the value type — passed as its
property type. -/
def __write_binary_property (w : Writer) (be : Bool) (property : Property)
    (property_type : PropertyType) (s : Sink) : Res (Sink × Nat) :=
  match property with
  | .Char v => do let (s, _) ← sinkWrite s [intBits 1 v]; pure (s, 1)
  | .UChar v => do let (s, _) ← sinkWrite s [v % 2 ^ 8]; pure (s, 1)
  | .Short v => do let (s, _) ← sinkWrite s (ordBytes be 2 (intBits 2 v)); pure (s, 2)
  | .UShort v => do let (s, _) ← sinkWrite s (ordBytes be 2 (v % 2 ^ 16)); pure (s, 2)
  | .Int v => do let (s, _) ← sinkWrite s (ordBytes be 4 (intBits 4 v)); pure (s, 4)
  | .UInt v => do let (s, _) ← sinkWrite s (ordBytes be 4 (v % 2 ^ 32)); pure (s, 4)
  | .Float bits => do let (s, _) ← sinkWrite s (ordBytes be 4 (bits % 2 ^ 32)); pure (s, 4)
  | .Double bits => do let (s, _) ← sinkWrite s (ordBytes be 8 (bits % 2 ^ 64)); pure (s, 8)
  | .List v =>
    match property_type with
    | .List index_type _ =>
      Res.bind
        (match index_type with
         | .Char => do let (s, _) ← sinkWrite s [v.length % 2 ^ 8]; pure (s, 1)
         | .UChar => do let (s, _) ← sinkWrite s [v.length % 2 ^ 8]; pure (s, 1)
         | .Short => do let (s, _) ← sinkWrite s (ordBytes be 2 (v.length % 2 ^ 16)); pure (s, 2)
         | .UShort => do let (s, _) ← sinkWrite s (ordBytes be 2 (v.length % 2 ^ 16)); pure (s, 2)
         | .Int => do let (s, _) ← sinkWrite s (ordBytes be 4 (v.length % 2 ^ 32)); pure (s, 4)
         | .UInt => do let (s, _) ← sinkWrite s (ordBytes be 4 (v.length % 2 ^ 32)); pure (s, 4)
         | .Float => .err (.invalidInput "List index must have integer type, Float found.")
         | .Double => .err (.invalidInput "List index must have integer type, Double found.")
         | .List _ _ => .err (.invalidInput "List index must have integer type, List found."))
        (fun (p : Sink × Nat) =>
          Res.bind (__write_binary_list w be v index_type p.1)
            (fun (q : Sink × Nat) => .ok (q.1, p.2 + q.2)))
    | _ => .err (.invalidInput "Property definition must be of type List.")

/-- The `for e in v` item loop inside the `List` branch of
`__write_binary_property`; `t` is the type the source passes for each item. -/
def __write_binary_list (w : Writer) (be : Bool) (v : List Property) (t : PropertyType)
    (s : Sink) : Res (Sink × Nat) :=
  match v with
  | [] => .ok (s, 0)
  | e :: rest => do
    let (s, n1) ← __write_binary_property w be e t s
    let (s, n2) ← __write_binary_list w be rest t s
    pure (s, n1 + n2)

end

/-- `__write_binary_element`: iterates the converted element's own entries
(`for (k, property) in element`), resolving each property's declared type by
name from the `ElementDef` (`element_def.properties[k]` — a panic when the
name is missing). -/
def __write_binary_element (w : Writer) (be : Bool) (element : DefaultElement)
    (element_def : ElementDef) (s : Sink) : Res (Sink × Nat) :=
  match element with
  | [] => .ok (s, 0)
  | (k, property) :: rest =>
    match assocLookup element_def.properties k with
    | none => .panic
    | some pd => do
      let (s, n1) ← __write_binary_property w be property pd.data_type s
      let (s, n2) ← __write_binary_element w be rest element_def s
      pure (s, n1 + n2)

/-! ## Ascii payload -/

mutual

/-- `write_ascii_property`. -/
def write_ascii_property (w : Writer) (data_element : Property) (s : Sink) :
    Res (Sink × Nat) :=
  match data_element with
  | .Char v => write_simple_value w (intToString v) s
  | .UChar v => write_simple_value w (natToString v) s
  | .Short v => write_simple_value w (intToString v) s
  | .UShort v => write_simple_value w (natToString v) s
  | .Int v => write_simple_value w (intToString v) s
  | .UInt v => write_simple_value w (natToString v) s
  | .Float bits => write_simple_value w (f32ToString bits) s
  | .Double bits => write_simple_value w (f64ToString bits) s
  | .List v => do
    let (s, n1) ← sinkWrite s (strBytes (natToString v.length))
    let (s, n2) ← write_ascii_list w v s
    pure (s, n1 + n2)

/-- The `for e in v` loop inside the `List` branch of `write_ascii_property`:
a space, then the item, for every item. -/
def write_ascii_list (w : Writer) (v : List Property) (s : Sink) : Res (Sink × Nat) :=
  match v with
  | [] => .ok (s, 0)
  | e :: rest => do
    let (s, n1) ← sinkWrite s (strBytes " ")
    let (s, n2) ← write_ascii_property w e s
    let (s, n3) ← write_ascii_list w rest s
    pure (s, n1 + n2 + n3)

end

/-- The `loop` of `__write_ascii_element` after the first property: each pass
writes a space and only then asks the iterator for the next property,
breaking when it is exhausted — so the space written just before the break
stays in the output. -/
def __write_ascii_tail (w : Writer) (rest : List (String × Property)) (s : Sink) :
    Res (Sink × Nat) :=
  match rest with
  | [] => do
    let (s, n1) ← sinkWrite s (strBytes " ")
    pure (s, n1)
  | (_, prop_val) :: rest' => do
    let (s, n1) ← sinkWrite s (strBytes " ")
    let (s, n2) ← write_ascii_property w prop_val s
    let (s, n3) ← __write_ascii_tail w rest' s
    pure (s, n1 + n2 + n3)

/-- `__write_ascii_element`: `p_iter.next().unwrap()` on the first property
panics when the converted element has no properties. -/
def __write_ascii_element (w : Writer) (element : DefaultElement) (s : Sink) :
    Res (Sink × Nat) :=
  match element with
  | [] => .panic
  | (_, prop_val) :: rest => do
    let (s, n1) ← write_ascii_property w prop_val s
    let (s, n2) ← __write_ascii_tail w rest s
    let (s, n3) ← write_new_line w s
    pure (s, n1 + n2 + n3)

/-! ## Public element/payload entry points -/

/-- `write_ascii_element`. -/
def write_ascii_element {P : Type} (w : Writer) (conv : Converter P) (element : P)
    (element_def : ElementDef) (s : Sink) : Res (Sink × Nat) := do
  let raw_element ← liftConv (conv element element_def)
  __write_ascii_element w raw_element s

/-- `write_big_endian_element`. -/
def write_big_endian_element {P : Type} (w : Writer) (conv : Converter P) (element : P)
    (element_def : ElementDef) (s : Sink) : Res (Sink × Nat) := do
  let raw_element ← liftConv (conv element element_def)
  __write_binary_element w true raw_element element_def s

/-- `write_little_endian_element`: the source instantiates
`__write_binary_element::<T, BigEndian>` here, so the flag is `true`
(big-endian), mirroring `src/writer.rs` line 200. -/
def write_little_endian_element {P : Type} (w : Writer) (conv : Converter P) (element : P)
    (element_def : ElementDef) (s : Sink) : Res (Sink × Nat) := do
  let raw_element ← liftConv (conv element element_def)
  __write_binary_element w true raw_element element_def s

/-- The `Encoding::Ascii` loop of `write_payload_of_element`. -/
def write_ascii_value_list {P : Type} (w : Writer) (conv : Converter P) (element_list : List P)
    (element_def : ElementDef) (s : Sink) : Res (Sink × Nat) :=
  match element_list with
  | [] => .ok (s, 0)
  | e :: rest => do
    let raw_element ← liftConv (conv e element_def)
    let (s, n1) ← __write_ascii_element w raw_element s
    let (s, n2) ← write_ascii_value_list w conv rest element_def s
    pure (s, n1 + n2)

/-- The binary loops of `write_payload_of_element` (`be` selects the
`ByteOrder` instantiation). -/
def write_binary_value_list {P : Type} (w : Writer) (conv : Converter P) (be : Bool)
    (element_list : List P) (element_def : ElementDef) (s : Sink) : Res (Sink × Nat) :=
  match element_list with
  | [] => .ok (s, 0)
  | e :: rest => do
    let raw_element ← liftConv (conv e element_def)
    let (s, n1) ← __write_binary_element w be raw_element element_def s
    let (s, n2) ← write_binary_value_list w conv be rest element_def s
    pure (s, n1 + n2)

/-- `write_payload_of_element`: dispatches on the header's encoding
(`BigEndian` for `BinaryBigEndian`, `LittleEndian` for `BinaryLittleEndian`). -/
def write_payload_of_element {P : Type} (w : Writer) (conv : Converter P)
    (element_list : List P) (element_def : ElementDef) (header : Header) (s : Sink) :
    Res (Sink × Nat) :=
  match header.encoding with
  | .Ascii => write_ascii_value_list w conv element_list element_def s
  | .BinaryBigEndian => write_binary_value_list w conv true element_list element_def s
  | .BinaryLittleEndian => write_binary_value_list w conv false element_list element_def s

/-- `write_payload`: iterates the *payload* map's entries in their insertion
order (`for (k, element_list) in payload`), resolving each element definition
by name from the header (`element_defs[k]` — a panic when the name is
missing). -/
def write_payload {P : Type} (w : Writer) (conv : Converter P)
    (payload : List (String × List P)) (header : Header) (s : Sink) : Res (Sink × Nat) :=
  match payload with
  | [] => .ok (s, 0)
  | (k, element_list) :: rest =>
    match assocLookup header.elements k with
    | none => .panic
    | some element_def => do
      let (s, n1) ← write_payload_of_element w conv element_list element_def header s
      let (s, n2) ← write_payload w conv rest header s
      pure (s, n1 + n2)

/-- `write_ply`: header, then payload, then `out.flush().unwrap()` — a flush
failure panics rather than being returned. -/
def write_ply {P : Type} (w : Writer) (conv : Converter P) (ply : Ply P) (s : Sink) :
    Res (Sink × Nat) := do
  let (s, n1) ← write_header w ply.header s
  let (s, n2) ← write_payload w conv ply.payload ply.header s
  match sinkFlush s with
  | .error _ => .panic
  | .ok s => .ok (s, n1 + n2)


/-! ## Spec-side definitions (following the spec's words, for refinement
claims; the writer definitions above follow the source) -/

/-- Follows the spec's words: the format line's encoding keyword. -/
def encodingKeyword : Encoding → String
  | .Ascii => "ascii"
  | .BinaryBigEndian => "binary_big_endian"
  | .BinaryLittleEndian => "binary_little_endian"

/-- Follows the spec's words: the header token of a property type —
a fixed lowercase keyword for scalars, `list <itype> <vtype>` for lists. -/
def typeToken : PropertyType → String
  | .Char => "char"
  | .UChar => "uchar"
  | .Short => "short"
  | .UShort => "ushort"
  | .Int => "int"
  | .UInt => "uint"
  | .Float => "float"
  | .Double => "double"
  | .List i t => "list " ++ typeToken i ++ " " ++ typeToken t

/-- Concatenation of a list of strings. -/
def concatStrings : List String → String
  | [] => ""
  | a :: rest => a ++ concatStrings rest

/-- Follows the spec's words (the header contract): the header's lines in
strict order — the magic line; the format line; one comment line per comment
in order; one obj_info line per obj_info in order; for each element in header
order its element line immediately followed by one property line per property
in definition order; then `end_header` — every line terminated by the
configured newline `nl`. -/
def headerLines (nl : String) (h : Header) : List String :=
  ("ply" ++ nl)
    :: ("format " ++ encodingKeyword h.encoding ++ " "
        ++ natToString h.version.major ++ "." ++ natToString h.version.minor ++ nl)
    :: (h.comments.map (fun c => "comment " ++ c ++ nl)
        ++ h.obj_infos.map (fun o => "obj_info " ++ o ++ nl)
        ++ (h.elements.map (fun e =>
              ("element " ++ e.2.name ++ " " ++ natToString e.2.count ++ nl)
                ++ concatStrings (e.2.properties.map (fun p =>
                     "property " ++ typeToken p.2.data_type ++ " " ++ p.2.name ++ nl))))
        ++ ["end_header" ++ nl])

/-- The full header text the spec prescribes. -/
def headerText (nl : String) (h : Header) : String := concatStrings (headerLines nl h)

/-- A list index type must be an integer scalar kind. -/
def isIntScalar : PropertyType → Bool
  | .Char | .UChar | .Short | .UShort | .Int | .UInt => true
  | _ => false

/-- A property type the header emitter can encode: every list level has an
integer-scalar index type. -/
def validPT : PropertyType → Bool
  | .List i t => isIntScalar i && validPT t
  | _ => true

/-- Every property type declared in the header is encodable. -/
def validHeader (h : Header) : Bool :=
  h.elements.all (fun e => e.2.properties.all (fun p => validPT p.2.data_type))

/-! ## Emission infrastructure -/

/-- `Emits f out`: on every sink with no injected write failures, the writer
step `f` succeeds, appends exactly the bytes `out` to the sink, and reports
`out.length` bytes written. -/
@[reducible] def Emits (f : Sink → Res (Sink × Nat)) (out : List Nat) : Prop :=
  ∀ s : Sink, s.failures = [] → f s = .ok ({ s with buf := s.buf ++ out }, out.length)

theorem sinkWrite_ok (s : Sink) (bs : List Nat) (hs : s.failures = []) :
    sinkWrite s bs = .ok ({ s with buf := s.buf ++ bs }, bs.length) := by
  simp [sinkWrite, hs]

@[simp] theorem strBytes_append (a b : String) :
    strBytes (a ++ b) = strBytes a ++ strBytes b := by
  simp [strBytes, String.data_append]

@[simp] theorem strBytes_empty : strBytes "" = [] := rfl

@[simp] theorem concatStrings_nil : concatStrings [] = "" := rfl

@[simp] theorem concatStrings_cons (a : String) (l : List String) :
    concatStrings (a :: l) = a ++ concatStrings l := rfl

theorem emits_write_new_line (w : Writer) :
    Emits (write_new_line w) (strBytes w.new_line) := by
  intro s hs
  simp [write_new_line, sinkWrite_ok s _ hs]

theorem emits_write_simple_value (w : Writer) (v : String) :
    Emits (write_simple_value w v) (strBytes v) := by
  intro s hs
  simp [write_simple_value, sinkWrite_ok s _ hs]


theorem emits_write_encoding (w : Writer) (e : Encoding) :
    Emits (write_encoding w e) (strBytes (encodingKeyword e)) := by
  intro s hs
  cases e <;> simp [write_encoding, encodingKeyword, sinkWrite_ok s _ hs]

theorem emits_write_line_magic_number (w : Writer) :
    Emits (write_line_magic_number w) (strBytes ("ply" ++ w.new_line)) := by
  intro s hs
  simp [write_line_magic_number, write_new_line, sinkWrite_ok, hs, List.append_assoc,
    Nat.add_assoc]

theorem emits_write_line_format (w : Writer) (e : Encoding) (ver : Version) :
    Emits (write_line_format w e ver)
      (strBytes ("format " ++ encodingKeyword e ++ " " ++ natToString ver.major ++ "."
        ++ natToString ver.minor ++ w.new_line)) := by
  intro s hs
  simp [write_line_format, write_new_line, sinkWrite_ok, hs, emits_write_encoding w e,
    List.append_assoc, Nat.add_assoc]

theorem emits_write_line_comment (w : Writer) (c : String) :
    Emits (write_line_comment w c) (strBytes ("comment " ++ c ++ w.new_line)) := by
  intro s hs
  simp [write_line_comment, write_new_line, sinkWrite_ok, hs, List.append_assoc, Nat.add_assoc]

theorem emits_write_line_obj_info (w : Writer) (o : String) :
    Emits (write_line_obj_info w o) (strBytes ("obj_info " ++ o ++ w.new_line)) := by
  intro s hs
  simp [write_line_obj_info, write_new_line, sinkWrite_ok, hs, List.append_assoc, Nat.add_assoc]

theorem emits_write_line_element_definition (w : Writer) (e : ElementDef) :
    Emits (write_line_element_definition w e)
      (strBytes ("element " ++ e.name ++ " " ++ natToString e.count ++ w.new_line)) := by
  intro s hs
  simp [write_line_element_definition, write_new_line, sinkWrite_ok, hs, List.append_assoc,
    Nat.add_assoc]

theorem emits_write_line_end_header (w : Writer) :
    Emits (write_line_end_header w) (strBytes ("end_header" ++ w.new_line)) := by
  intro s hs
  simp [write_line_end_header, write_new_line, sinkWrite_ok, hs, List.append_assoc, Nat.add_assoc]

theorem emits_write_property_type (w : Writer) :
    ∀ t : PropertyType, validPT t = true →
      Emits (write_property_type w t) (strBytes (typeToken t)) := by
  intro t
  induction t with
  | Char => intro _ s hs; simp [write_property_type, typeToken, sinkWrite_ok s _ hs]
  | UChar => intro _ s hs; simp [write_property_type, typeToken, sinkWrite_ok s _ hs]
  | Short => intro _ s hs; simp [write_property_type, typeToken, sinkWrite_ok s _ hs]
  | UShort => intro _ s hs; simp [write_property_type, typeToken, sinkWrite_ok s _ hs]
  | Int => intro _ s hs; simp [write_property_type, typeToken, sinkWrite_ok s _ hs]
  | UInt => intro _ s hs; simp [write_property_type, typeToken, sinkWrite_ok s _ hs]
  | Float => intro _ s hs; simp [write_property_type, typeToken, sinkWrite_ok s _ hs]
  | Double => intro _ s hs; simp [write_property_type, typeToken, sinkWrite_ok s _ hs]
  | List i t ihi iht =>
    intro hv s hs
    rw [validPT] at hv
    simp only [Bool.and_eq_true] at hv
    obtain ⟨hi, ht⟩ := hv
    cases i with
    | Float => simp [isIntScalar] at hi
    | Double => simp [isIntScalar] at hi
    | List i2 t2 => simp [isIntScalar] at hi
    | Char =>
      simp [write_property_type, typeToken, sinkWrite_ok, hs, iht ht,
        List.append_assoc, Nat.add_assoc]
      exact ⟨by rfl, by norm_num [strBytes]; omega⟩
    | UChar =>
      simp [write_property_type, typeToken, sinkWrite_ok, hs, iht ht,
        List.append_assoc, Nat.add_assoc]
      exact ⟨by rfl, by norm_num [strBytes]; omega⟩
    | Short =>
      simp [write_property_type, typeToken, sinkWrite_ok, hs, iht ht,
        List.append_assoc, Nat.add_assoc]
      exact ⟨by rfl, by norm_num [strBytes]; omega⟩
    | UShort =>
      simp [write_property_type, typeToken, sinkWrite_ok, hs, iht ht,
        List.append_assoc, Nat.add_assoc]
      exact ⟨by rfl, by norm_num [strBytes]; omega⟩
    | Int =>
      simp [write_property_type, typeToken, sinkWrite_ok, hs, iht ht,
        List.append_assoc, Nat.add_assoc]
      exact ⟨by rfl, by norm_num [strBytes]; omega⟩
    | UInt =>
      simp [write_property_type, typeToken, sinkWrite_ok, hs, iht ht,
        List.append_assoc, Nat.add_assoc]
      exact ⟨by rfl, by norm_num [strBytes]; omega⟩


@[simp] theorem concatStrings_append (a b : List String) :
    concatStrings (a ++ b) = concatStrings a ++ concatStrings b := by
  induction a with
  | nil => simp
  | cons x xs ih => simp [ih, String.append_assoc]

theorem emits_write_line_property_definition (w : Writer) (p : PropertyDef)
    (hp : validPT p.data_type = true) :
    Emits (write_line_property_definition w p)
      (strBytes ("property " ++ typeToken p.data_type ++ " " ++ p.name ++ w.new_line)) := by
  intro s hs
  simp [write_line_property_definition, write_new_line, sinkWrite_ok, hs,
    emits_write_property_type w p.data_type hp, List.append_assoc, Nat.add_assoc]

theorem emits_write_property_def_list (w : Writer) (ps : List (String × PropertyDef))
    (h : ∀ p ∈ ps, validPT p.2.data_type = true) :
    Emits (write_property_def_list w ps)
      (strBytes (concatStrings (ps.map (fun p =>
        "property " ++ typeToken p.2.data_type ++ " " ++ p.2.name ++ w.new_line)))) := by
  induction ps with
  | nil => intro s hs; simp [write_property_def_list]
  | cons p rest ih =>
    obtain ⟨k, pd⟩ := p
    intro s hs
    have hp : validPT pd.data_type = true := h (k, pd) (by simp)
    have hr := ih (fun q hq => h q (by simp [hq]))
    simp [write_property_def_list, emits_write_line_property_definition w pd hp, hr, hs,
      List.append_assoc, Nat.add_assoc]

theorem emits_write_element_definition (w : Writer) (e : ElementDef)
    (h : ∀ p ∈ e.properties, validPT p.2.data_type = true) :
    Emits (write_element_definition w e)
      (strBytes (("element " ++ e.name ++ " " ++ natToString e.count ++ w.new_line)
        ++ concatStrings (e.properties.map (fun p =>
             "property " ++ typeToken p.2.data_type ++ " " ++ p.2.name ++ w.new_line)))) := by
  intro s hs
  simp [write_element_definition, emits_write_line_element_definition w e,
    emits_write_property_def_list w e.properties h, hs, List.append_assoc, Nat.add_assoc]

theorem emits_write_comment_list (w : Writer) (cs : List String) :
    Emits (write_comment_list w cs)
      (strBytes (concatStrings (cs.map (fun c => "comment " ++ c ++ w.new_line)))) := by
  induction cs with
  | nil => intro s hs; simp [write_comment_list]
  | cons c rest ih =>
    intro s hs
    simp [write_comment_list, emits_write_line_comment w c, ih, hs,
      List.append_assoc, Nat.add_assoc]

theorem emits_write_obj_info_list (w : Writer) (os : List String) :
    Emits (write_obj_info_list w os)
      (strBytes (concatStrings (os.map (fun o => "obj_info " ++ o ++ w.new_line)))) := by
  induction os with
  | nil => intro s hs; simp [write_obj_info_list]
  | cons o rest ih =>
    intro s hs
    simp [write_obj_info_list, emits_write_line_obj_info w o, ih, hs,
      List.append_assoc, Nat.add_assoc]

theorem emits_write_element_def_list (w : Writer) (es : List (String × ElementDef))
    (h : ∀ e ∈ es, ∀ p ∈ e.2.properties, validPT p.2.data_type = true) :
    Emits (write_element_def_list w es)
      (strBytes (concatStrings (es.map (fun e =>
        ("element " ++ e.2.name ++ " " ++ natToString e.2.count ++ w.new_line)
          ++ concatStrings (e.2.properties.map (fun p =>
               "property " ++ typeToken p.2.data_type ++ " " ++ p.2.name ++ w.new_line)))))) := by
  induction es with
  | nil => intro s hs; simp [write_element_def_list]
  | cons e rest ih =>
    obtain ⟨k, ed⟩ := e
    intro s hs
    have he := emits_write_element_definition w ed (h (k, ed) (by simp))
    have hr := ih (fun q hq => h q (by simp [hq]))
    simp [write_element_def_list, he, hr, hs, List.append_assoc, Nat.add_assoc]

theorem emits_write_header (w : Writer) (h : Header) (hv : validHeader h = true) :
    Emits (write_header w h) (strBytes (headerText w.new_line h)) := by
  intro s hs
  have hvv : ∀ e ∈ h.elements, ∀ p ∈ e.2.properties, validPT p.2.data_type = true := by
    intro e he p hp
    rw [validHeader] at hv
    simp only [List.all_eq_true] at hv
    exact hv e he p hp
  simp [write_header, emits_write_line_magic_number w,
    emits_write_line_format w h.encoding h.version,
    emits_write_comment_list w h.comments,
    emits_write_obj_info_list w h.obj_infos,
    emits_write_element_def_list w h.elements hvv,
    emits_write_line_end_header w, hs, headerText, headerLines,
    List.append_assoc, Nat.add_assoc]


/-! ## Concrete scenario data (from the spec's scenarios) -/

/-- The spec's vertex element: three float properties x, y, z, count 2. -/
def vertexDef : ElementDef :=
  ⟨"vertex", 2, [("x", ⟨"x", .Float⟩), ("y", ⟨"y", .Float⟩), ("z", ⟨"z", .Float⟩)]⟩

/-- Ascii header declaring only the vertex element. -/
def asciiVertexHeader : Header := ⟨.Ascii, ⟨1, 0⟩, [], [], [("vertex", vertexDef)]⟩

/-- Vertex (1.5, 2.5, 3.5) as f32 bit patterns. -/
def vertexRow1 : DefaultElement :=
  [("x", .Float 0x3FC00000), ("y", .Float 0x40200000), ("z", .Float 0x40600000)]

/-- Vertex (4, 5, 6) as f32 bit patterns. -/
def vertexRow2 : DefaultElement :=
  [("x", .Float 0x40800000), ("y", .Float 0x40A00000), ("z", .Float 0x40C00000)]

/-- A one-column element definition with a single `int` property `p`. -/
def intDef : ElementDef := ⟨"e", 1, [("p", ⟨"p", .Int⟩)]⟩

/-- Element row holding `p = 1i32`. -/
def intEl : DefaultElement := [("p", .Int 1)]

/-- Binary little-endian header declaring only `intDef`. -/
def bleIntHdr : Header := ⟨.BinaryLittleEndian, ⟨1, 0⟩, [], [], [("e", intDef)]⟩

/-- Binary big-endian header declaring only `intDef`. -/
def bbeIntHdr : Header := ⟨.BinaryBigEndian, ⟨1, 0⟩, [], [], [("e", intDef)]⟩

/-- Element definition with no properties. -/
def emptyElemDef : ElementDef := ⟨"e", 1, []⟩

/-- Ascii document whose single payload element has zero properties. -/
def emptyElementDoc : Ply DefaultElement :=
  ⟨⟨.Ascii, ⟨1, 0⟩, [], [], [("e", emptyElemDef)]⟩, [("e", [([] : DefaultElement)])]⟩

/-- Document with an empty header (no elements) and empty payload. -/
def emptyDoc : Ply DefaultElement := ⟨⟨.Ascii, ⟨1, 0⟩, [], [], []⟩, []⟩

/-! ## Claim theorems -/

/-- C9: for every Header the emitter can encode, `write_header` emits exactly,
in strict order, the magic line, the format line, the comment lines in order,
the obj_info lines in order, each element line immediately followed by its
property lines in definition order, then `end_header` — the byte stream is
exactly the concatenation of the spec's header lines (`headerLines`), each of
which is terminated by the configured newline; and the default newline is
CRLF. -/
theorem C9_header_strict_order (w : Writer) (h : Header) (hv : validHeader h = true) :
    Emits (write_header w h) (strBytes (headerText w.new_line h)) ∧
      Writer.new.new_line = "\r\n" :=
  ⟨emits_write_header w h hv, rfl⟩

/-- Witness for C9: the theorem applied to the spec's concrete vertex header
on an empty sink. -/
theorem C9_header_strict_order_witness :
    validHeader asciiVertexHeader = true ∧
      write_header Writer.new asciiVertexHeader (mkSink []) =
        .ok ({ mkSink [] with
                buf := (mkSink []).buf ++ strBytes (headerText Writer.new.new_line asciiVertexHeader) },
          (strBytes (headerText Writer.new.new_line asciiVertexHeader)).length) :=
  ⟨by decide, (C9_header_strict_order Writer.new asciiVertexHeader (by decide)).1 (mkSink []) rfl⟩

/-- C5 counterexample: under ascii/CRLF, the rows written for (1.5, 2.5, 3.5)
and (4, 5, 6) are `"1.5 2.5 3.5 \r\n"` and `"4 5 6 \r\n"` — each has a
trailing space before the newline (the row loop writes the separator before
asking the iterator for the next property), so they are not the byte strings
`"1.5 2.5 3.5\r\n"` and `"4 5 6\r\n"` the claim states. -/
theorem C5_ascii_rows_counterexample :
    write_payload_of_element Writer.new idConv [vertexRow1, vertexRow2] vertexDef
        asciiVertexHeader (mkSink []) =
      .ok (⟨strBytes ("1.5 2.5 3.5 \r\n" ++ "4 5 6 \r\n"), [], none⟩, 22)
    ∧ strBytes ("1.5 2.5 3.5 \r\n" ++ "4 5 6 \r\n") ≠ strBytes ("1.5 2.5 3.5\r\n" ++ "4 5 6\r\n") := by
  constructor
  · decide
  · decide

/-- C5 amended: each ascii payload row is the space-separated base-10 values,
each value followed by one space (including the last), then the configured
newline — the two rows are exactly `"1.5 2.5 3.5 \r\n"` and `"4 5 6 \r\n"`. -/
theorem C5_ascii_rows_amended :
    write_payload_of_element Writer.new idConv [vertexRow1, vertexRow2] vertexDef
        asciiVertexHeader (mkSink []) =
      .ok (⟨strBytes "1.5 2.5 3.5 \r\n4 5 6 \r\n", [], none⟩, 22) := by
  decide

/-- C7: encoding a list property whose index type is Float, Double, or itself
a List fails with an invalid-list-index-type error on both paths — the header
property line (`write_property_type`) and the binary list payload field
(`__write_binary_property`) — with a distinct message for each of the three
cases on each path. -/
theorem C7_invalid_list_index_both_paths (w : Writer) (vt vt2 i2 t2 : PropertyType)
    (v : List Property) (be : Bool) :
    (write_property_type w (.List .Float vt) (mkSink []) =
        .err (.invalidInput "List index can not be of type float.")
      ∧ write_property_type w (.List .Double vt) (mkSink []) =
        .err (.invalidInput "List index can not be of type double.")
      ∧ write_property_type w (.List (.List i2 t2) vt) (mkSink []) =
        .err (.invalidInput "List index can not be of type list."))
    ∧ (__write_binary_property w be (.List v) (.List .Float vt2) (mkSink []) =
        .err (.invalidInput "List index must have integer type, Float found.")
      ∧ __write_binary_property w be (.List v) (.List .Double vt2) (mkSink []) =
        .err (.invalidInput "List index must have integer type, Double found.")
      ∧ __write_binary_property w be (.List v) (.List (.List i2 t2) vt2) (mkSink []) =
        .err (.invalidInput "List index must have integer type, List found."))
    ∧ (("List index can not be of type float." ≠ "List index can not be of type double."
        ∧ "List index can not be of type float." ≠ "List index can not be of type list."
        ∧ "List index can not be of type double." ≠ "List index can not be of type list.")
      ∧ ("List index must have integer type, Float found."
            ≠ "List index must have integer type, Double found."
        ∧ "List index must have integer type, Float found."
            ≠ "List index must have integer type, List found."
        ∧ "List index must have integer type, Double found."
            ≠ "List index must have integer type, List found.")) := by
  refine ⟨⟨rfl, rfl, rfl⟩, ⟨rfl, rfl, rfl⟩, by decide, by decide⟩

/-- C10: a converted element with zero properties makes the ascii element
path call `unwrap` on the first iterator step: `write_ascii_element` panics
for every sink and element definition, and `write(sink, document)` with an
ascii document containing such an element panics too, instead of returning a
`Result`. -/
theorem C10_empty_ascii_element_panics (w : Writer) (s : Sink) (eld : ElementDef) :
    write_ascii_element w idConv ([] : DefaultElement) eld s = .panic
    ∧ write_ply w idConv emptyElementDoc (mkSink []) = .panic :=
  ⟨rfl, rfl⟩

/-- C2 (code bug): in a binary list field the count is written at the index
type's width, but each item is then passed the *index* type (the value type
binding is discarded), so (1) a nested list value type — declared
`list uchar (list uchar int)` — makes every inner-list item fail with
"Property definition must be of type List." instead of recursing with the
inner list's own index and value types, and (2) a scalar item is written at
its own variant's width, not the declared value type's width: an item
`Char 7` under declared value type `int` yields the 2-byte field
`[1, 7]` (count + 1-byte item) instead of count + 4 bytes. -/
theorem C2_list_item_type_mismatch (w : Writer) (be : Bool) :
    __write_binary_property w be (.List [.List [.Int 7]])
        (.List .UChar (.List .UChar .Int)) (mkSink []) =
      .err (.invalidInput "Property definition must be of type List.")
    ∧ __write_binary_property w be (.List [.Char 7]) (.List .UChar .Int) (mkSink []) =
      .ok ({ mkSink [] with buf := [1, 7] }, 2) :=
  ⟨rfl, by constructor⟩

/-- C3 (code bug): `write_little_endian_element` instantiates the binary
element writer with `BigEndian`, so for the element `{p = 1i32}` it emits
`[0, 0, 0, 1]` while `write(sink, document)` under the
`binary_little_endian` encoding emits `[1, 0, 0, 0]` for the same element —
the entry point does not produce the same bytes, and its multi-byte fields
are big-endian. -/
theorem C3_little_endian_entry_is_big_endian (w : Writer) :
    write_little_endian_element w idConv intEl intDef (mkSink []) =
      .ok ({ mkSink [] with buf := [0, 0, 0, 1] }, 4)
    ∧ write_payload_of_element w idConv [intEl] intDef bleIntHdr (mkSink []) =
      .ok ({ mkSink [] with buf := [1, 0, 0, 0] }, 4)
    ∧ ([0, 0, 0, 1] : List Nat) ≠ [1, 0, 0, 0] := by
  refine ⟨by constructor, by constructor, by decide⟩

/-- C6 counterexample: when only the final `flush` fails, `write(sink,
document)` does not return that failure as an error `Result` — the source
calls `out.flush().unwrap()`, so the call panics. -/
theorem C6_flush_failure_counterexample :
    write_ply Writer.new idConv emptyDoc ⟨[], [], some 7⟩ = .panic
    ∧ (Res.panic : Res (Sink × Nat)) ≠ .err (.io 7) := by
  refine ⟨rfl, by decide⟩




/-! ## Payload block / field order (claims C1, C4) -/

/-- Two single-char-property element definitions and a header declaring them
in order `a`, `b`, with a payload inserted in order `b`, `a`. -/
def defA : ElementDef := ⟨"a", 1, [("p", ⟨"p", .Char⟩)]⟩

def defB : ElementDef := ⟨"b", 1, [("p", ⟨"p", .Char⟩)]⟩

def hdrAB : Header := ⟨.BinaryLittleEndian, ⟨1, 0⟩, [], [], [("a", defA), ("b", defB)]⟩

def payBA : List (String × List DefaultElement) :=
  [("b", [[("p", .Char 2)]]), ("a", [[("p", .Char 1)]])]

def docBA : Ply DefaultElement := ⟨hdrAB, payBA⟩

/-- `BlocksEmit w conv hdr payload bs`: the payload's entries, in their
insertion order, each resolve in the header and emit the corresponding byte
block of `bs`. -/
inductive BlocksEmit {P : Type} (w : Writer) (conv : Converter P) (hdr : Header) :
    List (String × List P) → List (List Nat) → Prop
  | nil : BlocksEmit w conv hdr [] []
  | cons {k : String} {lst : List P} {eld : ElementDef} {b : List Nat}
      {rest : List (String × List P)} {bs : List (List Nat)} :
      assocLookup hdr.elements k = some eld →
      Emits (write_payload_of_element w conv lst eld hdr) b →
      BlocksEmit w conv hdr rest bs →
      BlocksEmit w conv hdr ((k, lst) :: rest) (b :: bs)

/-- C1 counterexample: for the document whose header declares elements in
order `a`, `b` but whose payload was inserted in order `b`, `a`,
`write(sink, document)` emits the payload bytes `[2, 1]` — block `b` (byte 2)
before block `a` (byte 1), i.e. the payload's insertion order — where the
header's element-definition order would give `[1, 2]`. -/
theorem C1_block_order_counterexample :
    write_ply Writer.new idConv docBA (mkSink []) =
      .ok (⟨strBytes (headerText Writer.new.new_line hdrAB) ++ [2, 1], [], none⟩,
        (strBytes (headerText Writer.new.new_line hdrAB)).length + 2)
    ∧ ([2, 1] : List Nat) ≠ [1, 2] := by
  constructor
  · have hp : Emits (write_payload Writer.new idConv payBA hdrAB) [2, 1] := by
      intro s hs
      have h2 : intBits 1 2 = 2 := by decide
      have h1 : intBits 1 1 = 1 := by decide
      simp [write_payload, payBA, hdrAB, defA, defB, assocLookup, write_payload_of_element,
        write_binary_value_list, __write_binary_element, __write_binary_property,
        idConv, liftConv, sinkWrite_ok, hs, h2, h1]
    have step1 := emits_write_header Writer.new hdrAB (by decide) (mkSink []) rfl
    have step2 := hp { mkSink [] with
      buf := (mkSink []).buf ++ strBytes (headerText Writer.new.new_line hdrAB) } rfl
    simp [mkSink] at step1 step2
    simp [write_ply, docBA, mkSink, step1, step2, sinkFlush]
  · decide

/-- C1 amended: `write_payload` (the payload stage of `write(sink,
document)`) emits the payload element blocks in the *payload map's insertion
order*, resolving each block's element definition by name from the header; so
when the payload's insertion order differs from the header's element order,
the output block order follows the payload, not the header. -/
theorem C1_blocks_follow_payload_order {P : Type} (w : Writer) (conv : Converter P)
    (hdr : Header) (payload : List (String × List P)) (bs : List (List Nat))
    (h : BlocksEmit w conv hdr payload bs) :
    Emits (write_payload w conv payload hdr) bs.flatten := by
  induction h with
  | nil => intro s hs; simp [write_payload, List.flatten]
  | cons hlook hemit _ ih =>
    intro s hs
    simp [write_payload, List.flatten, hlook, hemit, ih, hs, List.append_assoc, Nat.add_assoc]

/-- Witness for C1's amended theorem: applied to the concrete swapped-order
payload, giving block `b`'s byte before block `a`'s. -/
theorem C1_blocks_follow_payload_order_witness :
    write_payload Writer.new idConv payBA hdrAB (mkSink []) =
      .ok ({ mkSink [] with
              buf := (mkSink []).buf ++ ([[intBits 1 2], [intBits 1 1]] : List (List Nat)).flatten },
        (([[intBits 1 2], [intBits 1 1]] : List (List Nat)).flatten).length) := by
  have hb : Emits (write_payload_of_element Writer.new idConv [[("p", .Char 2)]] defB hdrAB)
      [intBits 1 2] := by
    intro s hs
    simp [write_payload_of_element, hdrAB, write_binary_value_list, __write_binary_element,
      __write_binary_property, idConv, liftConv, defB, assocLookup, sinkWrite_ok _ _ hs]
  have ha : Emits (write_payload_of_element Writer.new idConv [[("p", .Char 1)]] defA hdrAB)
      [intBits 1 1] := by
    intro s hs
    simp [write_payload_of_element, hdrAB, write_binary_value_list, __write_binary_element,
      __write_binary_property, idConv, liftConv, defA, assocLookup, sinkWrite_ok _ _ hs]
  have h : BlocksEmit Writer.new idConv hdrAB payBA [[intBits 1 2], [intBits 1 1]] :=
    .cons (by decide) hb (.cons (by decide) ha .nil)
  exact C1_blocks_follow_payload_order Writer.new idConv hdrAB payBA _ h (mkSink []) rfl

/-- Element definition declaring `a : char` before `b : short`, a converted
element iterating `b` before `a`, and a little-endian header. -/
def defAB2 : ElementDef := ⟨"e", 1, [("a", ⟨"a", .Char⟩), ("b", ⟨"b", .Short⟩)]⟩

def bleHdr2 : Header := ⟨.BinaryLittleEndian, ⟨1, 0⟩, [], [], [("e", defAB2)]⟩

def elBA : DefaultElement := [("b", .Short 5), ("a", .Char 1)]

/-- `FieldsEmit w be eld element bs`: the converted element's entries, in the
element's own iteration order, each resolve by name in the ElementDef and
emit the corresponding field bytes of `bs`. -/
inductive FieldsEmit (w : Writer) (be : Bool) (eld : ElementDef) :
    DefaultElement → List (List Nat) → Prop
  | nil : FieldsEmit w be eld [] []
  | cons {k : String} {p : Property} {pd : PropertyDef} {b : List Nat}
      {rest : DefaultElement} {bs : List (List Nat)} :
      assocLookup eld.properties k = some pd →
      Emits (__write_binary_property w be p pd.data_type) b →
      FieldsEmit w be eld rest bs →
      FieldsEmit w be eld ((k, p) :: rest) (b :: bs)

/-- C4 counterexample: for the ElementDef declaring `a : char` then
`b : short` and a converted element iterating `b = 5i16` then `a = 1i8`, the
little-endian payload row is `[5, 0, 1]` — field `b` first, the element's own
iteration order — where the ElementDef's property order would give
`[1, 5, 0]`. -/
theorem C4_field_order_counterexample :
    write_payload_of_element Writer.new idConv [elBA] defAB2 bleHdr2 (mkSink []) =
      .ok (⟨[5, 0, 1], [], none⟩, 3)
    ∧ ([5, 0, 1] : List Nat) ≠ [1, 5, 0] := by
  refine ⟨by decide, by decide⟩

/-- C4 amended: under a binary encoding `__write_binary_element` writes the
fields of a converted element in the element's *own iteration order*, each
property's declared type being resolved by name from the ElementDef — so when
the element's iteration order differs from the ElementDef's property order,
the field order follows the element, not the ElementDef. -/
theorem C4_fields_follow_element_order (w : Writer) (be : Bool) (eld : ElementDef)
    (element : DefaultElement) (bs : List (List Nat))
    (h : FieldsEmit w be eld element bs) :
    Emits (__write_binary_element w be element eld) bs.flatten := by
  induction h with
  | nil => intro s hs; simp [__write_binary_element, List.flatten]
  | cons hlook hemit _ ih =>
    intro s hs
    simp [__write_binary_element, List.flatten, hlook, hemit, ih, hs, List.append_assoc,
      Nat.add_assoc]

/-- Witness for C4's amended theorem: applied to the concrete swapped-order
element, giving field `b`'s bytes before field `a`'s. -/
theorem C4_fields_follow_element_order_witness :
    __write_binary_element Writer.new false elBA defAB2 (mkSink []) =
      .ok ({ mkSink [] with
              buf := (mkSink []).buf
                ++ ([ordBytes false 2 (intBits 2 5), [intBits 1 1]] : List (List Nat)).flatten },
        (([ordBytes false 2 (intBits 2 5), [intBits 1 1]] : List (List Nat)).flatten).length) := by
  have hbField : Emits (__write_binary_property Writer.new false (.Short 5)
      (PropertyDef.mk "b" .Short).data_type) (ordBytes false 2 (intBits 2 5)) := by
    intro s hs
    simp [__write_binary_property, sinkWrite_ok _ _ hs, ordBytes, leBytes]
  have haField : Emits (__write_binary_property Writer.new false (.Char 1)
      (PropertyDef.mk "a" .Char).data_type) [intBits 1 1] := by
    intro s hs
    simp [__write_binary_property, sinkWrite_ok _ _ hs]
  have h : FieldsEmit Writer.new false defAB2 elBA
      [ordBytes false 2 (intBits 2 5), [intBits 1 1]] :=
    .cons (by decide) hbField (.cons (by decide) haField .nil)
  exact C4_fields_follow_element_order Writer.new false defAB2 elBA _ h (mkSink []) rfl


/-! ## Binary scalar field widths and byte order (claim C8) -/

/-- Follows the claim's width table: the on-wire width of a scalar property
value (Char/UChar 1, Short/UShort 2, Int/UInt/Float 4, Double 8). -/
def scalarWidth : Property → Nat
  | .Char _ => 1
  | .UChar _ => 1
  | .Short _ => 2
  | .UShort _ => 2
  | .Int _ => 4
  | .UInt _ => 4
  | .Float _ => 4
  | .Double _ => 8
  | .List _ => 0

/-- Follows the claim's words: the little-endian byte image of a scalar
property value (the big-endian image is its reverse). -/
def scalarLE : Property → List Nat
  | .Char v => [intBits 1 v]
  | .UChar v => [v % 2 ^ 8]
  | .Short v => leBytes 2 (intBits 2 v)
  | .UShort v => leBytes 2 (v % 2 ^ 16)
  | .Int v => leBytes 4 (intBits 4 v)
  | .UInt v => leBytes 4 (v % 2 ^ 32)
  | .Float b => leBytes 4 (b % 2 ^ 32)
  | .Double b => leBytes 8 (b % 2 ^ 64)
  | .List _ => []

@[simp] theorem leBytes_length (w n : Nat) : (leBytes w n).length = w := by
  induction w generalizing n with
  | zero => simp [leBytes]
  | succ k ih => simp [leBytes, ih]

/-- C8: every scalar property value written under a binary encoding occupies
exactly the table width — Char/UChar 1 byte, Short/UShort 2, Int/UInt/Float
4, Double 8 — and its bytes are the value's little-endian image, reversed
exactly when the big-endian order is selected; and `write(sink, document)`'s
payload stage selects big-endian for a `binary_big_endian` header and
little-endian for a `binary_little_endian` header. -/
theorem C8_scalar_width_and_byte_order (w : Writer) (be : Bool) (t : PropertyType)
    (p : Property) (hp : scalarWidth p ≠ 0) :
    (Emits (__write_binary_property w be p t)
        (if be then (scalarLE p).reverse else scalarLE p)
      ∧ (scalarLE p).length = scalarWidth p)
    ∧ (∀ s : Sink, s.failures = [] → ∀ iv : Int,
        write_payload_of_element w idConv [[("p", Property.Int iv)]] intDef bbeIntHdr s =
          .ok ({ s with buf := s.buf ++ (leBytes 4 (intBits 4 iv)).reverse }, 4)
        ∧ write_payload_of_element w idConv [[("p", Property.Int iv)]] intDef bleIntHdr s =
          .ok ({ s with buf := s.buf ++ leBytes 4 (intBits 4 iv) }, 4)) := by
  refine ⟨⟨?_, ?_⟩, ?_⟩
  · cases p <;> simp [scalarWidth] at hp <;> cases be <;> intro s hs <;>
      simp [__write_binary_property, scalarLE, ordBytes, sinkWrite_ok, hs, leBytes]
  · cases p <;> simp [scalarWidth, scalarLE, leBytes_length] at hp ⊢
  · intro s hs iv
    constructor <;>
      simp [write_payload_of_element, bbeIntHdr, bleIntHdr, intDef, write_binary_value_list,
        __write_binary_element, __write_binary_property, idConv, liftConv, assocLookup,
        sinkWrite_ok, hs, ordBytes]

/-- Witness for C8: the theorem applied to the value `Short 5` in big-endian
order on an empty sink. -/
theorem C8_scalar_width_and_byte_order_witness :
    scalarWidth (Property.Short 5) ≠ 0 ∧
      __write_binary_property Writer.new true (Property.Short 5) PropertyType.Char (mkSink []) =
        .ok ({ mkSink [] with
                buf := (mkSink []).buf ++ (if true then (scalarLE (Property.Short 5)).reverse
                  else scalarLE (Property.Short 5)) },
          (if true then (scalarLE (Property.Short 5)).reverse
            else scalarLE (Property.Short 5)).length) :=
  ⟨by decide,
    ((C8_scalar_width_and_byte_order Writer.new true PropertyType.Char (Property.Short 5)
      (by decide)).1.1) (mkSink []) rfl⟩


/-! ## Propagation of injected sink write failures (claim C6)

`Faithful e f` relates two runs of a writer step `f`: one on a sink whose
failure script makes the `(k+1)`-st `write` call fail with I/O error `e`
(after `k` successful calls), and one on a failure-free sink.  It says the
clean run either succeeds — preserving the empty script and the flush flag —
and then the scripted run either stops with exactly `.err (.io e)` (the
failure was reached) or succeeds identically with the unconsumed script
suffix intact (the failure was not reached); or the clean run fails for a
reason of its own (an error `Result` or a panic) and then the scripted run
either hits the injected failure first or does exactly the same thing.  In
every case an injected write failure can only surface verbatim as
`.err (.io e)` — never swallowed, transformed, or retried. -/
def Faithful (e : Nat) (f : Sink → Res (Sink × Nat)) : Prop :=
  ∀ (buf : List Nat) (fl : Option Nat) (k : Nat),
    (∃ buf' n, f ⟨buf, [], fl⟩ = .ok (⟨buf', [], fl⟩, n)
      ∧ (f ⟨buf, List.replicate k none ++ [some e], fl⟩ = .err (.io e)
        ∨ ∃ j, j ≤ k ∧ f ⟨buf, List.replicate k none ++ [some e], fl⟩ =
            .ok (⟨buf', List.replicate (k - j) none ++ [some e], fl⟩, n)))
    ∨ (((∃ er, f ⟨buf, [], fl⟩ = .err er) ∨ f ⟨buf, [], fl⟩ = .panic)
      ∧ (f ⟨buf, List.replicate k none ++ [some e], fl⟩ = .err (.io e)
        ∨ f ⟨buf, List.replicate k none ++ [some e], fl⟩ = f ⟨buf, [], fl⟩))

/-- Sequencing preserves `Faithful`: the continuation receives the step's
byte count, which agrees between the two runs. -/
theorem Faithful.bind {e : Nat} {f : Sink → Res (Sink × Nat)}
    {g : Sink × Nat → Res (Sink × Nat)}
    (hf : Faithful e f) (hg : ∀ n : Nat, Faithful e (fun s => g (s, n))) :
    Faithful e (fun s => Res.bind (f s) g) := by
  intro buf fl k
  rcases hf buf fl k with ⟨buf', n, hco, hs⟩ | ⟨hcf, hs⟩
  · rcases hs with hserr | ⟨j, hj, hsok⟩
    · rcases hg n buf' fl 0 with ⟨buf2, n2, hgc, _⟩ | ⟨hgf, _⟩
      · exact Or.inl ⟨buf2, n2, by simp [hco, hgc], Or.inl (by simp [hserr])⟩
      · exact Or.inr ⟨by simpa [hco] using hgf, Or.inl (by simp [hserr])⟩
    · rcases hg n buf' fl (k - j) with ⟨buf2, n2, hgc, hgs⟩ | ⟨hgf, hgs⟩
      · refine Or.inl ⟨buf2, n2, by simp [hco, hgc], ?_⟩
        rcases hgs with hgerr | ⟨j2, hj2, hgok⟩
        · exact Or.inl (by simp [hsok, hgerr])
        · refine Or.inr ⟨j + j2, by omega, ?_⟩
          have : k - (j + j2) = k - j - j2 := by omega
          simp [hsok, this, hgok]
      · refine Or.inr ⟨by simpa [hco] using hgf, ?_⟩
        rcases hgs with hgerr | hgeq
        · exact Or.inl (by simp [hsok, hgerr])
        · exact Or.inr (by simp [hsok, hco, hgeq])
  · have hclean : Res.bind (f ⟨buf, [], fl⟩) g = f ⟨buf, [], fl⟩ := by
      rcases hcf with ⟨er, her⟩ | hp
      · simp [her]
      · simp [hp]
    refine Or.inr ⟨?_, ?_⟩
    · rcases hcf with ⟨er, her⟩ | hp
      · exact Or.inl ⟨er, by simp [her]⟩
      · exact Or.inr (by simp [hp])
    · rcases hs with hserr | hseq
      · exact Or.inl (by simp [hserr])
      · exact Or.inr (by simp [hseq, hclean])

theorem faithful_sinkWrite (e : Nat) (bs : List Nat) :
    Faithful e (fun s => sinkWrite s bs) := by
  intro buf fl k
  refine Or.inl ⟨buf ++ bs, bs.length, by simp [sinkWrite], ?_⟩
  cases k with
  | zero => exact Or.inl (by simp [sinkWrite])
  | succ k2 =>
    refine Or.inr ⟨1, by omega, ?_⟩
    simp [sinkWrite, List.replicate_succ]

theorem faithful_ok (e n : Nat) : Faithful e (fun s => .ok (s, n)) := by
  intro buf fl k
  exact Or.inl ⟨buf, n, rfl, Or.inr ⟨0, by omega, rfl⟩⟩

theorem faithful_err (e : Nat) (er : WriteError) :
    Faithful e (fun _ => (.err er : Res (Sink × Nat))) := by
  intro buf fl k
  exact Or.inr ⟨Or.inl ⟨er, rfl⟩, Or.inr rfl⟩

theorem faithful_panic (e : Nat) :
    Faithful e (fun _ => (.panic : Res (Sink × Nat))) := by
  intro buf fl k
  exact Or.inr ⟨Or.inr rfl, Or.inr rfl⟩

theorem faithful_flush_step (e n : Nat) :
    Faithful e (fun s => match sinkFlush s with
      | .error _ => (.panic : Res (Sink × Nat))
      | .ok s' => .ok (s', n)) := by
  intro buf fl k
  cases fl with
  | none => exact Or.inl ⟨buf, n, by simp [sinkFlush], Or.inr ⟨0, by omega, by simp [sinkFlush]⟩⟩
  | some c => exact Or.inr ⟨Or.inr (by simp [sinkFlush]), Or.inr (by simp [sinkFlush])⟩

theorem faithful_write_new_line (e : Nat) (w : Writer) :
    Faithful e (write_new_line w) :=
  faithful_sinkWrite e (strBytes w.new_line)

theorem faithful_write_line_magic_number (e : Nat) (w : Writer) :
    Faithful e (write_line_magic_number w) :=
  Faithful.bind (faithful_sinkWrite e (strBytes "ply"))
    (fun n1 => Faithful.bind (faithful_write_new_line e w)
      (fun n2 => faithful_ok e (n1 + n2)))


theorem faithful_write_simple_value (e : Nat) (w : Writer) (v : String) :
    Faithful e (write_simple_value w v) :=
  faithful_sinkWrite e (strBytes v)

theorem faithful_write_encoding (e : Nat) (w : Writer) (enc : Encoding) :
    Faithful e (write_encoding w enc) :=
  faithful_sinkWrite e _

theorem faithful_write_line_format (e : Nat) (w : Writer) (enc : Encoding) (ver : Version) :
    Faithful e (write_line_format w enc ver) :=
  Faithful.bind (faithful_sinkWrite e _)
    (fun n1 => Faithful.bind (faithful_write_encoding e w enc)
      (fun n2 => Faithful.bind (faithful_sinkWrite e _)
        (fun n3 => Faithful.bind (faithful_write_new_line e w)
          (fun n4 => faithful_ok e (n1 + n2 + n3 + n4)))))

theorem faithful_write_line_comment (e : Nat) (w : Writer) (c : String) :
    Faithful e (write_line_comment w c) :=
  Faithful.bind (faithful_sinkWrite e _)
    (fun n1 => Faithful.bind (faithful_write_new_line e w)
      (fun n2 => faithful_ok e (n1 + n2)))

theorem faithful_write_line_obj_info (e : Nat) (w : Writer) (o : String) :
    Faithful e (write_line_obj_info w o) :=
  Faithful.bind (faithful_sinkWrite e _)
    (fun n1 => Faithful.bind (faithful_write_new_line e w)
      (fun n2 => faithful_ok e (n1 + n2)))

theorem faithful_write_line_element_definition (e : Nat) (w : Writer) (el : ElementDef) :
    Faithful e (write_line_element_definition w el) :=
  Faithful.bind (faithful_sinkWrite e _)
    (fun n1 => Faithful.bind (faithful_write_new_line e w)
      (fun n2 => faithful_ok e (n1 + n2)))

theorem faithful_write_line_end_header (e : Nat) (w : Writer) :
    Faithful e (write_line_end_header w) :=
  Faithful.bind (faithful_sinkWrite e _)
    (fun n1 => Faithful.bind (faithful_write_new_line e w)
      (fun n2 => faithful_ok e (n1 + n2)))

theorem faithful_write_property_type (e : Nat) (w : Writer) (t : PropertyType) :
    Faithful e (write_property_type w t) := by
  induction t with
  | Char => exact faithful_sinkWrite e _
  | UChar => exact faithful_sinkWrite e _
  | Short => exact faithful_sinkWrite e _
  | UShort => exact faithful_sinkWrite e _
  | Int => exact faithful_sinkWrite e _
  | UInt => exact faithful_sinkWrite e _
  | Float => exact faithful_sinkWrite e _
  | Double => exact faithful_sinkWrite e _
  | List i t ihi iht =>
    refine Faithful.bind (faithful_sinkWrite e _) (fun n1 => ?_)
    cases i with
    | Float => exact faithful_err e _
    | Double => exact faithful_err e _
    | List a b => exact faithful_err e _
    | Char =>
      exact Faithful.bind ihi (fun n2 => Faithful.bind (faithful_sinkWrite e _)
        (fun n3 => Faithful.bind iht (fun n4 => faithful_ok e (n1 + n2 + n3 + n4))))
    | UChar =>
      exact Faithful.bind ihi (fun n2 => Faithful.bind (faithful_sinkWrite e _)
        (fun n3 => Faithful.bind iht (fun n4 => faithful_ok e (n1 + n2 + n3 + n4))))
    | Short =>
      exact Faithful.bind ihi (fun n2 => Faithful.bind (faithful_sinkWrite e _)
        (fun n3 => Faithful.bind iht (fun n4 => faithful_ok e (n1 + n2 + n3 + n4))))
    | UShort =>
      exact Faithful.bind ihi (fun n2 => Faithful.bind (faithful_sinkWrite e _)
        (fun n3 => Faithful.bind iht (fun n4 => faithful_ok e (n1 + n2 + n3 + n4))))
    | Int =>
      exact Faithful.bind ihi (fun n2 => Faithful.bind (faithful_sinkWrite e _)
        (fun n3 => Faithful.bind iht (fun n4 => faithful_ok e (n1 + n2 + n3 + n4))))
    | UInt =>
      exact Faithful.bind ihi (fun n2 => Faithful.bind (faithful_sinkWrite e _)
        (fun n3 => Faithful.bind iht (fun n4 => faithful_ok e (n1 + n2 + n3 + n4))))

theorem faithful_write_line_property_definition (e : Nat) (w : Writer) (p : PropertyDef) :
    Faithful e (write_line_property_definition w p) :=
  Faithful.bind (faithful_sinkWrite e _)
    (fun n1 => Faithful.bind (faithful_write_property_type e w p.data_type)
      (fun n2 => Faithful.bind (faithful_sinkWrite e _)
        (fun n3 => Faithful.bind (faithful_sinkWrite e _)
          (fun n4 => Faithful.bind (faithful_write_new_line e w)
            (fun n5 => faithful_ok e (n1 + n2 + n3 + n4 + n5))))))

theorem faithful_write_property_def_list (e : Nat) (w : Writer)
    (ps : List (String × PropertyDef)) :
    Faithful e (write_property_def_list w ps) := by
  induction ps with
  | nil => exact faithful_ok e 0
  | cons hd tl ih =>
    obtain ⟨k, pd⟩ := hd
    exact Faithful.bind (faithful_write_line_property_definition e w pd)
      (fun n1 => Faithful.bind ih (fun n2 => faithful_ok e (n1 + n2)))

theorem faithful_write_element_definition (e : Nat) (w : Writer) (el : ElementDef) :
    Faithful e (write_element_definition w el) :=
  Faithful.bind (faithful_write_line_element_definition e w el)
    (fun n1 => Faithful.bind (faithful_write_property_def_list e w el.properties)
      (fun n2 => faithful_ok e (n1 + n2)))

theorem faithful_write_comment_list (e : Nat) (w : Writer) (cs : List String) :
    Faithful e (write_comment_list w cs) := by
  induction cs with
  | nil => exact faithful_ok e 0
  | cons c tl ih =>
    exact Faithful.bind (faithful_write_line_comment e w c)
      (fun n1 => Faithful.bind ih (fun n2 => faithful_ok e (n1 + n2)))

theorem faithful_write_obj_info_list (e : Nat) (w : Writer) (os : List String) :
    Faithful e (write_obj_info_list w os) := by
  induction os with
  | nil => exact faithful_ok e 0
  | cons o tl ih =>
    exact Faithful.bind (faithful_write_line_obj_info e w o)
      (fun n1 => Faithful.bind ih (fun n2 => faithful_ok e (n1 + n2)))

theorem faithful_write_element_def_list (e : Nat) (w : Writer)
    (es : List (String × ElementDef)) :
    Faithful e (write_element_def_list w es) := by
  induction es with
  | nil => exact faithful_ok e 0
  | cons hd tl ih =>
    obtain ⟨k, ed⟩ := hd
    exact Faithful.bind (faithful_write_element_definition e w ed)
      (fun n1 => Faithful.bind ih (fun n2 => faithful_ok e (n1 + n2)))

theorem faithful_write_header (e : Nat) (w : Writer) (h : Header) :
    Faithful e (write_header w h) :=
  Faithful.bind (faithful_write_line_magic_number e w)
    (fun n1 => Faithful.bind (faithful_write_line_format e w h.encoding h.version)
      (fun n2 => Faithful.bind (faithful_write_comment_list e w h.comments)
        (fun n3 => Faithful.bind (faithful_write_obj_info_list e w h.obj_infos)
          (fun n4 => Faithful.bind (faithful_write_element_def_list e w h.elements)
            (fun n5 => Faithful.bind (faithful_write_line_end_header e w)
              (fun n6 => faithful_ok e (n1 + n2 + n3 + n4 + n5 + n6)))))))


/-- `Faithful` transfers along pointwise equality of writer steps. -/
theorem Faithful.congr {e : Nat} {f g : Sink → Res (Sink × Nat)}
    (h : ∀ s, f s = g s) (hg : Faithful e g) : Faithful e f := by
  intro buf fl k
  simp only [h]
  exact hg buf fl k

mutual

theorem faithful_write_binary_property (e : Nat) (w : Writer) (be : Bool)
    (p : Property) (t : PropertyType) :
    Faithful e (__write_binary_property w be p t) := by
  cases p with
  | Char v => exact Faithful.bind (faithful_sinkWrite e _) (fun _ => faithful_ok e 1)
  | UChar v => exact Faithful.bind (faithful_sinkWrite e _) (fun _ => faithful_ok e 1)
  | Short v => exact Faithful.bind (faithful_sinkWrite e _) (fun _ => faithful_ok e 2)
  | UShort v => exact Faithful.bind (faithful_sinkWrite e _) (fun _ => faithful_ok e 2)
  | Int v => exact Faithful.bind (faithful_sinkWrite e _) (fun _ => faithful_ok e 4)
  | UInt v => exact Faithful.bind (faithful_sinkWrite e _) (fun _ => faithful_ok e 4)
  | Float b => exact Faithful.bind (faithful_sinkWrite e _) (fun _ => faithful_ok e 4)
  | Double b => exact Faithful.bind (faithful_sinkWrite e _) (fun _ => faithful_ok e 8)
  | List v =>
    cases t with
    | Char => exact faithful_err e _
    | UChar => exact faithful_err e _
    | Short => exact faithful_err e _
    | UShort => exact faithful_err e _
    | Int => exact faithful_err e _
    | UInt => exact faithful_err e _
    | Float => exact faithful_err e _
    | Double => exact faithful_err e _
    | List it vt =>
      cases it with
      | Char =>
        refine Faithful.bind
          (Faithful.bind (faithful_sinkWrite e _) (fun _ => faithful_ok e 1)) (fun n => ?_)
        show Faithful e (fun s => Res.bind (__write_binary_list w be v PropertyType.Char s)
          (fun q => Res.ok (q.1, n + q.2)))
        refine Faithful.bind (faithful_write_binary_list e w be v PropertyType.Char)
          (fun n2 => ?_)
        show Faithful e (fun s => Res.ok (s, n + n2))
        exact faithful_ok e (n + n2)
      | UChar =>
        refine Faithful.bind
          (Faithful.bind (faithful_sinkWrite e _) (fun _ => faithful_ok e 1)) (fun n => ?_)
        show Faithful e (fun s => Res.bind (__write_binary_list w be v PropertyType.UChar s)
          (fun q => Res.ok (q.1, n + q.2)))
        refine Faithful.bind (faithful_write_binary_list e w be v PropertyType.UChar)
          (fun n2 => ?_)
        show Faithful e (fun s => Res.ok (s, n + n2))
        exact faithful_ok e (n + n2)
      | Short =>
        refine Faithful.bind
          (Faithful.bind (faithful_sinkWrite e _) (fun _ => faithful_ok e 2)) (fun n => ?_)
        show Faithful e (fun s => Res.bind (__write_binary_list w be v PropertyType.Short s)
          (fun q => Res.ok (q.1, n + q.2)))
        refine Faithful.bind (faithful_write_binary_list e w be v PropertyType.Short)
          (fun n2 => ?_)
        show Faithful e (fun s => Res.ok (s, n + n2))
        exact faithful_ok e (n + n2)
      | UShort =>
        refine Faithful.bind
          (Faithful.bind (faithful_sinkWrite e _) (fun _ => faithful_ok e 2)) (fun n => ?_)
        show Faithful e (fun s => Res.bind (__write_binary_list w be v PropertyType.UShort s)
          (fun q => Res.ok (q.1, n + q.2)))
        refine Faithful.bind (faithful_write_binary_list e w be v PropertyType.UShort)
          (fun n2 => ?_)
        show Faithful e (fun s => Res.ok (s, n + n2))
        exact faithful_ok e (n + n2)
      | Int =>
        refine Faithful.bind
          (Faithful.bind (faithful_sinkWrite e _) (fun _ => faithful_ok e 4)) (fun n => ?_)
        show Faithful e (fun s => Res.bind (__write_binary_list w be v PropertyType.Int s)
          (fun q => Res.ok (q.1, n + q.2)))
        refine Faithful.bind (faithful_write_binary_list e w be v PropertyType.Int)
          (fun n2 => ?_)
        show Faithful e (fun s => Res.ok (s, n + n2))
        exact faithful_ok e (n + n2)
      | UInt =>
        refine Faithful.bind
          (Faithful.bind (faithful_sinkWrite e _) (fun _ => faithful_ok e 4)) (fun n => ?_)
        show Faithful e (fun s => Res.bind (__write_binary_list w be v PropertyType.UInt s)
          (fun q => Res.ok (q.1, n + q.2)))
        refine Faithful.bind (faithful_write_binary_list e w be v PropertyType.UInt)
          (fun n2 => ?_)
        show Faithful e (fun s => Res.ok (s, n + n2))
        exact faithful_ok e (n + n2)
      | Float => exact faithful_err e _
      | Double => exact faithful_err e _
      | List a b => exact faithful_err e _

theorem faithful_write_binary_list (e : Nat) (w : Writer) (be : Bool)
    (v : List Property) (t : PropertyType) :
    Faithful e (__write_binary_list w be v t) := by
  cases v with
  | nil => exact faithful_ok e 0
  | cons hd tl =>
    exact Faithful.bind (faithful_write_binary_property e w be hd t)
      (fun n1 => Faithful.bind (faithful_write_binary_list e w be tl t)
        (fun n2 => faithful_ok e (n1 + n2)))

end

theorem faithful_write_binary_element (e : Nat) (w : Writer) (be : Bool)
    (element : DefaultElement) (eld : ElementDef) :
    Faithful e (__write_binary_element w be element eld) := by
  induction element with
  | nil => exact faithful_ok e 0
  | cons hd tl ih =>
    obtain ⟨k, p⟩ := hd
    cases hl : assocLookup eld.properties k with
    | none =>
      refine Faithful.congr (fun s => ?_) (faithful_panic e)
      simp [__write_binary_element, hl]
    | some pd =>
      refine Faithful.congr (g := fun s =>
        (do
          let (s, n1) ← __write_binary_property w be p pd.data_type s
          let (s, n2) ← __write_binary_element w be tl eld s
          pure (s, n1 + n2) : Res (Sink × Nat))) (fun s => ?_) ?_
      · simp only [__write_binary_element, hl]
      · exact Faithful.bind (faithful_write_binary_property e w be p pd.data_type)
          (fun n1 => Faithful.bind ih (fun n2 => faithful_ok e (n1 + n2)))

mutual

theorem faithful_write_ascii_property (e : Nat) (w : Writer) (p : Property) :
    Faithful e (write_ascii_property w p) := by
  cases p with
  | Char v => exact faithful_write_simple_value e w _
  | UChar v => exact faithful_write_simple_value e w _
  | Short v => exact faithful_write_simple_value e w _
  | UShort v => exact faithful_write_simple_value e w _
  | Int v => exact faithful_write_simple_value e w _
  | UInt v => exact faithful_write_simple_value e w _
  | Float b => exact faithful_write_simple_value e w _
  | Double b => exact faithful_write_simple_value e w _
  | List v =>
    exact Faithful.bind (faithful_sinkWrite e _)
      (fun n1 => Faithful.bind (faithful_write_ascii_list e w v)
        (fun n2 => faithful_ok e (n1 + n2)))

theorem faithful_write_ascii_list (e : Nat) (w : Writer) (v : List Property) :
    Faithful e (write_ascii_list w v) := by
  cases v with
  | nil => exact faithful_ok e 0
  | cons hd tl =>
    exact Faithful.bind (faithful_sinkWrite e _)
      (fun n1 => Faithful.bind (faithful_write_ascii_property e w hd)
        (fun n2 => Faithful.bind (faithful_write_ascii_list e w tl)
          (fun n3 => faithful_ok e (n1 + n2 + n3))))

end

theorem faithful_write_ascii_tail (e : Nat) (w : Writer) (rest : List (String × Property)) :
    Faithful e (__write_ascii_tail w rest) := by
  induction rest with
  | nil => exact Faithful.bind (faithful_sinkWrite e _) (fun n1 => faithful_ok e n1)
  | cons hd tl ih =>
    obtain ⟨k, p⟩ := hd
    exact Faithful.bind (faithful_sinkWrite e _)
      (fun n1 => Faithful.bind (faithful_write_ascii_property e w p)
        (fun n2 => Faithful.bind ih (fun n3 => faithful_ok e (n1 + n2 + n3))))

theorem faithful_write_ascii_element (e : Nat) (w : Writer) (element : DefaultElement) :
    Faithful e (__write_ascii_element w element) := by
  cases element with
  | nil => exact faithful_panic e
  | cons hd tl =>
    obtain ⟨k, p⟩ := hd
    exact Faithful.bind (faithful_write_ascii_property e w p)
      (fun n1 => Faithful.bind (faithful_write_ascii_tail e w tl)
        (fun n2 => Faithful.bind (faithful_write_new_line e w)
          (fun n3 => faithful_ok e (n1 + n2 + n3))))


theorem faithful_write_ascii_value_list {P : Type} (e : Nat) (w : Writer)
    (conv : Converter P) (element_list : List P) (eld : ElementDef) :
    Faithful e (write_ascii_value_list w conv element_list eld) := by
  induction element_list with
  | nil => exact faithful_ok e 0
  | cons hd tl ih =>
    cases hc : conv hd eld with
    | error er =>
      refine Faithful.congr (fun s => ?_) (faithful_err e er)
      simp [write_ascii_value_list, hc, liftConv]
    | ok raw =>
      refine Faithful.congr (g := fun s =>
        (do
          let (s, n1) ← __write_ascii_element w raw s
          let (s, n2) ← write_ascii_value_list w conv tl eld s
          pure (s, n1 + n2) : Res (Sink × Nat))) (fun s => ?_) ?_
      · simp only [write_ascii_value_list, hc, liftConv, Res.monad_bind_eq_bind, Res.bind_ok]
      · exact Faithful.bind (faithful_write_ascii_element e w raw)
          (fun n1 => Faithful.bind ih (fun n2 => faithful_ok e (n1 + n2)))

theorem faithful_write_binary_value_list {P : Type} (e : Nat) (w : Writer)
    (conv : Converter P) (be : Bool) (element_list : List P) (eld : ElementDef) :
    Faithful e (write_binary_value_list w conv be element_list eld) := by
  induction element_list with
  | nil => exact faithful_ok e 0
  | cons hd tl ih =>
    cases hc : conv hd eld with
    | error er =>
      refine Faithful.congr (fun s => ?_) (faithful_err e er)
      simp [write_binary_value_list, hc, liftConv]
    | ok raw =>
      refine Faithful.congr (g := fun s =>
        (do
          let (s, n1) ← __write_binary_element w be raw eld s
          let (s, n2) ← write_binary_value_list w conv be tl eld s
          pure (s, n1 + n2) : Res (Sink × Nat))) (fun s => ?_) ?_
      · simp only [write_binary_value_list, hc, liftConv, Res.monad_bind_eq_bind, Res.bind_ok]
      · exact Faithful.bind (faithful_write_binary_element e w be raw eld)
          (fun n1 => Faithful.bind ih (fun n2 => faithful_ok e (n1 + n2)))

theorem faithful_write_payload_of_element {P : Type} (e : Nat) (w : Writer)
    (conv : Converter P) (element_list : List P) (eld : ElementDef) (header : Header) :
    Faithful e (write_payload_of_element w conv element_list eld header) := by
  obtain ⟨enc, ver, cs, os, es⟩ := header
  cases enc with
  | Ascii => exact faithful_write_ascii_value_list e w conv element_list eld
  | BinaryBigEndian => exact faithful_write_binary_value_list e w conv true element_list eld
  | BinaryLittleEndian => exact faithful_write_binary_value_list e w conv false element_list eld

theorem faithful_write_payload {P : Type} (e : Nat) (w : Writer) (conv : Converter P)
    (payload : List (String × List P)) (header : Header) :
    Faithful e (write_payload w conv payload header) := by
  induction payload with
  | nil => exact faithful_ok e 0
  | cons hd tl ih =>
    obtain ⟨k, element_list⟩ := hd
    cases hl : assocLookup header.elements k with
    | none =>
      refine Faithful.congr (fun s => ?_) (faithful_panic e)
      simp [write_payload, hl]
    | some eld =>
      refine Faithful.congr (g := fun s =>
        (do
          let (s, n1) ← write_payload_of_element w conv element_list eld header s
          let (s, n2) ← write_payload w conv tl header s
          pure (s, n1 + n2) : Res (Sink × Nat))) (fun s => ?_) ?_
      · simp only [write_payload, hl]
      · exact Faithful.bind (faithful_write_payload_of_element e w conv element_list eld header)
          (fun n1 => Faithful.bind ih (fun n2 => faithful_ok e (n1 + n2)))

theorem faithful_write_ply {P : Type} (e : Nat) (w : Writer) (conv : Converter P)
    (ply : Ply P) :
    Faithful e (write_ply w conv ply) :=
  Faithful.bind (faithful_write_header e w ply.header)
    (fun n1 => Faithful.bind (faithful_write_payload e w conv ply.payload ply.header)
      (fun n2 => faithful_flush_step e (n1 + n2)))


/-- C6 amended: (i) for every document, converter, sink contents, flush flag,
and failure position `k` (`Faithful`): when the failure-free run of
`write(sink, document)` succeeds, the run on the sink whose `(k+1)`-st write
call fails with I/O error `e` either returns exactly `.err (.io e)` — the
failing write was reached, the call aborts, nothing is retried or rewrapped —
or succeeds identically because the writer performed at most `k` writes; and
when the failure-free run errors or panics on its own, the scripted run does
the same thing or surfaces `.err (.io e)`.  So every underlying sink *write*
failure, wherever it strikes, is propagated verbatim.  (ii) The first write
(the magic line) always happens, so a failure at position 0 yields
`.err (.io e)` for every document.  (iii) A failure of the final flush is
*not* propagated: the call then never returns `Ok` — it panics unless header
or payload emission already aborted with an error of its own, and (iv) on a
document whose emission succeeds with only the flush failing, the call
panics instead of returning an error `Result`. -/
theorem C6_write_failure_propagation {P : Type} (w : Writer) (conv : Converter P)
    (ply : Ply P) (e : Nat) (buf : List Nat) (fl : Option Nat) :
    Faithful e (write_ply w conv ply)
    ∧ write_ply w conv ply ⟨buf, [some e], fl⟩ = .err (.io e)
    ∧ (∀ c : Nat, write_ply w conv ply ⟨buf, [], some c⟩ = .panic
        ∨ ∃ er, write_ply w conv ply ⟨buf, [], some c⟩ = .err er)
    ∧ write_ply Writer.new idConv emptyDoc ⟨[], [], some 7⟩ = .panic := by
  refine ⟨faithful_write_ply e w conv ply, rfl, ?_, rfl⟩
  intro c
  rcases (faithful_write_header 0 w ply.header) buf (some c) 0 with
    ⟨buf1, n1, hok1, _⟩ | ⟨hcf1, _⟩
  · rcases (faithful_write_payload 0 w conv ply.payload ply.header) buf1 (some c) 0 with
      ⟨buf2, n2, hok2, _⟩ | ⟨hcf2, _⟩
    · left
      simp [write_ply, hok1, hok2, sinkFlush]
    · rcases hcf2 with ⟨er, her⟩ | hp
      · exact Or.inr ⟨er, by simp [write_ply, hok1, her]⟩
      · left
        simp [write_ply, hok1, hp]
  · rcases hcf1 with ⟨er, her⟩ | hp
    · exact Or.inr ⟨er, by simp [write_ply, her]⟩
    · left
      simp [write_ply, hp]

end PlyRS
